import Mathlib

/-!
Verification of the OTLP/HTTP exporter delivery path
(`exporter/otlphttpexporter`): encoding, transport invocation, bounded
response-body consumption, status decoding and outcome classification.

The Go source is embedded shallowly:

* `Response` packages what the Go `*http.Response` contributes to the
  classification decision: status code, `Retry-After` header value
  (`Header.Get` returns the empty string when the header is absent),
  declared `ContentLength` (`-1` for unknown), and the byte stream of the
  body, modelled as the list of bytes the server will deliver.
* External collaborators are parameters: `decode` stands for
  `proto.Unmarshal` into a `status.Status` (an arbitrary function from
  bytes to an optional decoded status), `net` stands for building and
  executing the HTTP request (`http.NewRequestWithContext` + `client.Do`).
* Fallible Go calls returning `(T, error)` become `Except String T` /
  `Option T`; a Go `error` result of the push path becomes the
  `ExportError` sum below, `none` meaning success (`nil` error).
-/

/-- Decoded `google.golang.org/genproto/googleapis/rpc/status.Status`.
`details` holds the rendering of each element of the `Details` slice. -/
structure Status where
  code : Int
  message : String
  details : List String
deriving DecidableEq

/-- What one HTTP exchange contributes to classification: the fields of the
Go `*http.Response` that `export`/`readResponse` consult. `retryAfterHeader`
is `resp.Header.Get("Retry-After")`, the empty string when absent. `body` is
the stream of bytes the server delivers; `contentLength` is the declared
`ContentLength`, `-1` when unknown. -/
structure Response where
  statusCode : Int
  retryAfterHeader : String
  contentLength : Int
  body : List Nat
deriving DecidableEq

/-- The classified outcome carried in the Go `error` returned by the push
path: `consumererror.NewPermanent`, `exporterhelper.NewThrottleRetry` (with
the delay in seconds, as `time.Duration(retryAfter)*time.Second`), or a
plain (retryable) error. -/
inductive ExportError where
  | permanent (msg : String)
  | throttle (msg : String) (delaySeconds : Int)
  | retryable (msg : String)
deriving DecidableEq

/-- Result of building and issuing the HTTP request: `newRequestError` is
`http.NewRequestWithContext` failing (nothing sent), `doError` is
`client.Do` failing at transport level (no response descriptor), and
`response` is a completed exchange. -/
inductive HTTPResult where
  | newRequestError (err : String)
  | doError (err : String)
  | response (resp : Response)

/-- `maxHTTPResponseReadBytes = 64 * 1024` from the source. -/
def maxHTTPResponseReadBytes : Nat := 64 * 1024

/-- Value of a digit list read in base 10, for `strconv.Atoi`. -/
def digitsToNat (l : List Char) : Nat :=
  l.foldl (fun a c => a * 10 + (c.toNat - 48)) 0

/-- Go `strconv.Atoi`: optional sign, one or more decimal digits, value
must fit a 64-bit `int`; any other input (empty string included) is an
error, modelled as `none`. -/
def strconvAtoi (s : String) : Option Int :=
  let signAndDigits : Bool × List Char :=
    match s.data with
    | '-' :: rest => (true, rest)
    | '+' :: rest => (false, rest)
    | l => (false, l)
  let neg := signAndDigits.1
  let ds := signAndDigits.2
  if ds.isEmpty || !(ds.all Char.isDigit) then
    none
  else
    let v : Int := if neg then -(digitsToNat ds : Int) else (digitsToNat ds : Int)
    if v < -(2 ^ 63) || 2 ^ 63 - 1 < v then none else some v

/-- Rendering of the `Details` slice by `fmt`'s `%v` verb: elements
space-separated inside square brackets. -/
def detailsString (l : List String) : String :=
  "[" ++ String.intercalate " " l ++ "]"

/-- The error message `export` formats when `readResponse` produced no
decoded status: only the destination URL and the numeric HTTP status. -/
def formatNoStatus (url : String) (code : Int) : String :=
  "error exporting items, request to " ++ url ++
    " responded with HTTP Status Code " ++ toString code

/-- The error message `export` formats when a decoded status is present:
URL, numeric HTTP status, decoded message and decoded details. -/
def formatWithStatus (url : String) (code : Int) (st : Status) : String :=
  "error exporting items, request to " ++ url ++
    " responded with HTTP Status Code " ++ toString code ++
    ", Message=" ++ st.message ++ ", Details=" ++ detailsString st.details

/-- The `maxRead` computed by `readResponse`, as a byte count:
`maxRead := resp.ContentLength; if maxRead == -1 || maxRead >
maxHTTPResponseReadBytes { maxRead = maxHTTPResponseReadBytes }`. -/
def maxReadNat (resp : Response) : Nat :=
  (if resp.contentLength = -1 ∨ (maxHTTPResponseReadBytes : Int) < resp.contentLength then
    (maxHTTPResponseReadBytes : Int)
  else
    resp.contentLength).toNat

/-- `readResponse`: for failure status codes (400–599) read exactly
`maxRead` bytes with `io.ReadFull` and decode them as a `Status`;
`io.ReadFull` succeeds (err == nil) exactly when the body holds at least
`maxRead` bytes, and the decode is attempted only when additionally
`n > 0`.  Every failure path yields `none` — no error is propagated. -/
def readResponse (decode : List Nat → Option Status) (resp : Response) : Option Status :=
  if 400 ≤ resp.statusCode ∧ resp.statusCode ≤ 599 then
    let maxRead := maxReadNat resp
    let n := min resp.body.length maxRead
    if n = maxRead ∧ 0 < n then
      decode (resp.body.take maxRead)
    else
      none
  else
    none

/-- The `formattedErr` message `export` builds from the optional decoded
status. -/
def formattedError (decode : List Nat → Option Status) (url : String) (resp : Response) :
    String :=
  match readResponse decode resp with
  | some st => formatWithStatus url resp.statusCode st
  | none => formatNoStatus url resp.statusCode

/-- The classification `export` performs once a response descriptor is in
hand: 2xx succeeds (`nil` error); 429/503 yield a throttle error whose
delay comes from parsing `Retry-After` with `strconv.Atoi` (0 when the
header is absent or unparseable); 400 yields a permanent error; everything
else yields the plain formatted error. -/
def classify (decode : List Nat → Option Status) (url : String) (resp : Response) :
    Option ExportError :=
  if 200 ≤ resp.statusCode ∧ resp.statusCode ≤ 299 then
    none
  else
    let formattedErr := formattedError decode url resp
    if resp.statusCode = 429 ∨ resp.statusCode = 503 then
      let retryAfter : Int :=
        if resp.retryAfterHeader = "" then 0
        else
          match strconvAtoi resp.retryAfterHeader with
          | some seconds => seconds
          | none => 0
      some (ExportError.throttle formattedErr retryAfter)
    else if resp.statusCode = 400 then
      some (ExportError.permanent formattedErr)
    else
      some (ExportError.retryable formattedErr)

/-- `export`: build and issue the POST, then classify.  The second
component records the request payloads handed to the transport, so that
"no network transmission" is expressible.  A `NewRequestWithContext`
failure is wrapped permanent before anything is sent; a `client.Do`
failure is wrapped in the plain (retryable) transport-error message. -/
def doExport (decode : List Nat → Option Status) (url : String) (request : List Nat)
    (net : List Nat → HTTPResult) : Option ExportError × List (List Nat) :=
  match net request with
  | HTTPResult.newRequestError e => (some (ExportError.permanent e), [])
  | HTTPResult.doError e =>
      (some (ExportError.retryable ("failed to make an HTTP request: " ++ e)), [request])
  | HTTPResult.response resp => (classify decode url resp, [request])

/-- Bytes `readResponse` consumes from the body: `io.ReadFull` into a
buffer of `maxRead` bytes takes `min (body length) maxRead` bytes even
when it returns an error; outside 400–599 nothing is read (for 2xx,
`export` returns before calling `readResponse`; for other codes the range
check fails). -/
def statusReadBytes (resp : Response) : Nat :=
  if 400 ≤ resp.statusCode ∧ resp.statusCode ≤ 599 then
    min resp.body.length (maxReadNat resp)
  else
    0

/-- Bytes the deferred `io.CopyN(ioutil.Discard, resp.Body,
maxHTTPResponseReadBytes)` drains from wherever the reads left the body. -/
def drainBytes (resp : Response) : Nat :=
  min (resp.body.length - statusReadBytes resp) maxHTTPResponseReadBytes

/-- Total bytes one `export` call consumes from the response body: the
status-decoding read plus the deferred drain. -/
def totalBodyBytesConsumed (resp : Response) : Nat :=
  statusReadBytes resp + drainBytes resp

/-- The message carried by a classified outcome, any constructor. -/
def errMessage : ExportError → String
  | ExportError.permanent m => m
  | ExportError.throttle m _ => m
  | ExportError.retryable m => m

/-- `sub` occurs contiguously inside `s`. -/
def strContains (s sub : String) : Prop :=
  ∃ pre post : List Char, s.data = pre ++ sub.data ++ post

/-- The retry-after duration the spec describes: the integer number of
seconds parsed from the `Retry-After` value, 0 when the header is absent
(empty `Header.Get` result) or not a parseable integer. -/
def specRetryAfterSeconds (hdr : String) : Int :=
  (strconvAtoi hdr).getD 0

/-- A Go panic value, carried while a panic is propagating. -/
structure GoPanic where
  msg : String
deriving DecidableEq

/-- `logTextTracesWithErrorHandled`: render the debug text marshal result,
falling back to the source's fixed message when the marshaler errs. -/
def logTextTracesWithErrorHandled (r : Except String String) : String :=
  match r with
  | Except.ok s => s
  | Except.error _ => "Text marshal metrics failed for traces."

/-- `logTextMetricsWithErrorHandled` on a metrics value. -/
def logTextMetricsWithErrorHandled (r : Except String String) : String :=
  match r with
  | Except.ok s => s
  | Except.error _ => "Text marshal metrics failed for metrics."

/-- `logTextLogsWithErrorHandled`. -/
def logTextLogsWithErrorHandled (r : Except String String) : String :=
  match r with
  | Except.ok s => s
  | Except.error _ => "Text marshal metrics failed for logs."

/-- The deferred `logAndRethrowIfPanic`: when the push body completed
normally (`recover() == nil`) it does nothing; when a panic is in flight
it logs `beforeMarshal`, calls the re-marshal closure (whose own panic,
if any, replaces the in-flight one), and re-panics. -/
def logAndRethrowIfPanic (beforeMarshal : String)
    (marshalWithErrorHandled : Unit → Except GoPanic String)
    (bodyResult : Except GoPanic α) : Except GoPanic α :=
  match bodyResult with
  | Except.error r =>
      let _loggedBefore := beforeMarshal
      match marshalWithErrorHandled () with
      | Except.error p => Except.error p
      | Except.ok _logged => Except.error r
  | Except.ok v => Except.ok v

/-- `pushTraces`: optional debug rendering, marshal the batch to protobuf
(`MarshalProto`, whose error is wrapped permanent with nothing sent),
then `export`.  `marshalProto` is the result of `MarshalProto`; the body
is a total function, so its `Except GoPanic` result is always `ok`. -/
def pushTraces (debugEnabled : Bool) (debugText : Except String String)
    (marshalProto : Except String (List Nat)) (decode : List Nat → Option Status)
    (net : List Nat → HTTPResult) (tracesURL : String) :
    Except GoPanic (Option ExportError × List (List Nat)) :=
  let body : Except GoPanic (Option ExportError × List (List Nat)) :=
    match marshalProto with
    | Except.error e => Except.ok (some (ExportError.permanent e), [])
    | Except.ok request => Except.ok (doExport decode tracesURL request net)
  if debugEnabled then
    let beforeMarshal := logTextTracesWithErrorHandled debugText
    logAndRethrowIfPanic beforeMarshal
      (fun _ => Except.ok (logTextTracesWithErrorHandled debugText)) body
  else
    body

/-- `pushMetrics`, same shape as `pushTraces`. -/
def pushMetrics (debugEnabled : Bool) (debugText : Except String String)
    (marshalProto : Except String (List Nat)) (decode : List Nat → Option Status)
    (net : List Nat → HTTPResult) (metricsURL : String) :
    Except GoPanic (Option ExportError × List (List Nat)) :=
  let body : Except GoPanic (Option ExportError × List (List Nat)) :=
    match marshalProto with
    | Except.error e => Except.ok (some (ExportError.permanent e), [])
    | Except.ok request => Except.ok (doExport decode metricsURL request net)
  if debugEnabled then
    let beforeMarshal := logTextMetricsWithErrorHandled debugText
    logAndRethrowIfPanic beforeMarshal
      (fun _ => Except.ok (logTextMetricsWithErrorHandled debugText)) body
  else
    body

/-- `pushLogs`.  The source's deferred closure calls
`logTextMetricsWithErrorHandled(ld)` on the logs value; its
`d.(pdata.Metrics)` type assertion panics if the closure is ever run —
which happens only while a panic is already propagating out of the body. -/
def pushLogs (debugEnabled : Bool) (debugText : Except String String)
    (marshalProto : Except String (List Nat)) (decode : List Nat → Option Status)
    (net : List Nat → HTTPResult) (logsURL : String) :
    Except GoPanic (Option ExportError × List (List Nat)) :=
  let body : Except GoPanic (Option ExportError × List (List Nat)) :=
    match marshalProto with
    | Except.error e => Except.ok (some (ExportError.permanent e), [])
    | Except.ok request => Except.ok (doExport decode logsURL request net)
  if debugEnabled then
    let beforeMarshal := logTextLogsWithErrorHandled debugText
    logAndRethrowIfPanic beforeMarshal
      (fun _ => Except.error
        (GoPanic.mk "interface conversion: interface is plog.Logs, not pdata.Metrics")) body
  else
    body

/-- A decoder that never produces a status, for concrete instances. -/
def noStatusDecode : List Nat → Option Status := fun _ => none

lemma strconvAtoi_empty : strconvAtoi "" = none := by decide

lemma retryAfterValue_eq (hdr : String) :
    (if hdr = "" then (0 : Int)
     else
       match strconvAtoi hdr with
       | some seconds => seconds
       | none => 0) = specRetryAfterSeconds hdr := by
  by_cases h : hdr = ""
  · subst h
    simp [specRetryAfterSeconds, strconvAtoi_empty]
  · rw [if_neg h]
    unfold specRetryAfterSeconds
    cases hA : strconvAtoi hdr <;> simp [hA]

lemma classify_throttled (decode : List Nat → Option Status) (url : String) (resp : Response)
    (h : resp.statusCode = 429 ∨ resp.statusCode = 503) :
    classify decode url resp =
      some (ExportError.throttle (formattedError decode url resp)
        (specRetryAfterSeconds resp.retryAfterHeader)) := by
  have h2 : ¬(200 ≤ resp.statusCode ∧ resp.statusCode ≤ 299) := by
    rcases h with h | h <;> rw [h] <;> intro hc <;> omega
  unfold classify
  rw [if_neg h2, if_pos h, retryAfterValue_eq]

lemma classify_message (decode : List Nat → Option Status) (url : String) (resp : Response)
    (h : ¬(200 ≤ resp.statusCode ∧ resp.statusCode ≤ 299)) :
    ∃ e, classify decode url resp = some e ∧
      errMessage e = formattedError decode url resp := by
  unfold classify
  rw [if_neg h]
  by_cases h429 : resp.statusCode = 429 ∨ resp.statusCode = 503
  · rw [if_pos h429]
    exact ⟨_, rfl, rfl⟩
  · rw [if_neg h429]
    by_cases h400 : resp.statusCode = 400
    · rw [if_pos h400]
      exact ⟨_, rfl, rfl⟩
    · rw [if_neg h400]
      exact ⟨_, rfl, rfl⟩

lemma formatNoStatus_contains_url (url : String) (c : Int) :
    strContains (formatNoStatus url c) url := by
  refine ⟨("error exporting items, request to " : String).data,
    (" responded with HTTP Status Code " ++ toString c).data, ?_⟩
  simp [formatNoStatus, String.data_append]

lemma formatWithStatus_contains_url (url : String) (c : Int) (st : Status) :
    strContains (formatWithStatus url c st) url := by
  refine ⟨("error exporting items, request to " : String).data,
    (" responded with HTTP Status Code " ++ toString c ++ ", Message=" ++ st.message ++
      ", Details=" ++ detailsString st.details).data, ?_⟩
  simp [formatWithStatus, String.data_append]

lemma formatWithStatus_contains_code (url : String) (c : Int) (st : Status) :
    strContains (formatWithStatus url c st) (toString c) := by
  refine ⟨("error exporting items, request to " ++ url ++
      " responded with HTTP Status Code " : String).data,
    ((", Message=" : String) ++ st.message ++ ", Details=" ++ detailsString st.details).data, ?_⟩
  simp [formatWithStatus, String.data_append]

lemma formatWithStatus_contains_message (url : String) (c : Int) (st : Status) :
    strContains (formatWithStatus url c st) st.message := by
  refine ⟨("error exporting items, request to " ++ url ++
      " responded with HTTP Status Code " ++ toString c ++ ", Message=" : String).data,
    ((", Details=" : String) ++ detailsString st.details).data, ?_⟩
  simp [formatWithStatus, String.data_append]

lemma formatWithStatus_contains_details (url : String) (c : Int) (st : Status) :
    strContains (formatWithStatus url c st) (detailsString st.details) := by
  refine ⟨("error exporting items, request to " ++ url ++
      " responded with HTTP Status Code " ++ toString c ++ ", Message=" ++ st.message ++
      ", Details=" : String).data, ([] : List Char), ?_⟩
  simp [formatWithStatus, String.data_append]

/-- C1: for every response with HTTP status 429 or 503, `export` returns a
throttled failure whose retry-after delay equals the integer number of
seconds `strconv.Atoi` parses from the `Retry-After` header value, and 0
when the header is absent (empty) or not a parseable integer
(`specRetryAfterSeconds`). -/
theorem claim_C1_throttle_retry_after (decode : List Nat → Option Status)
    (url : String) (resp : Response)
    (h : resp.statusCode = 429 ∨ resp.statusCode = 503) :
    ∃ m, classify decode url resp =
      some (ExportError.throttle m (specRetryAfterSeconds resp.retryAfterHeader)) :=
  ⟨_, classify_throttled decode url resp h⟩

/-- C1 witness: status 429 with `Retry-After: 5` throttles for 5 seconds;
status 503 with the header absent throttles for 0 seconds. -/
theorem claim_C1_throttle_retry_after_witness :
    specRetryAfterSeconds "5" = 5 ∧ specRetryAfterSeconds "" = 0 ∧
    (∃ m, classify noStatusDecode "http://collector" (Response.mk 429 "5" 0 []) =
      some (ExportError.throttle m (specRetryAfterSeconds "5"))) ∧
    (∃ m, classify noStatusDecode "http://collector" (Response.mk 503 "" 0 []) =
      some (ExportError.throttle m (specRetryAfterSeconds ""))) :=
  ⟨by decide, by decide,
   claim_C1_throttle_retry_after noStatusDecode "http://collector"
     (Response.mk 429 "5" 0 []) (Or.inl rfl),
   claim_C1_throttle_retry_after noStatusDecode "http://collector"
     (Response.mk 503 "" 0 []) (Or.inr rfl)⟩

/-- C10: a parseable negative `Retry-After` value on a 429/503 response is
accepted as-is: the throttled outcome carries the negative number of
seconds, with no clamping to zero. -/
theorem claim_C10_negative_retry_after (decode : List Nat → Option Status)
    (url : String) (resp : Response) (s : Int)
    (h : resp.statusCode = 429 ∨ resp.statusCode = 503)
    (hparse : strconvAtoi resp.retryAfterHeader = some s) (hneg : s < 0) :
    ∃ m, classify decode url resp = some (ExportError.throttle m s) := by
  have hc := classify_throttled decode url resp h
  simp only [specRetryAfterSeconds, hparse, Option.getD_some] at hc
  exact ⟨_, hc⟩

/-- C10 witness: status 429 with `Retry-After: -5` throttles for -5
seconds. -/
theorem claim_C10_negative_retry_after_witness :
    strconvAtoi "-5" = some (-5) ∧ (-5 : Int) < 0 ∧
    ∃ m, classify noStatusDecode "http://collector" (Response.mk 429 "-5" 0 []) =
      some (ExportError.throttle m (-5)) :=
  ⟨by decide, by decide,
   claim_C10_negative_retry_after noStatusDecode "http://collector"
     (Response.mk 429 "-5" 0 []) (-5) (Or.inl rfl) (by decide) (by decide)⟩

/-- C4: every response with HTTP status 400 classifies as a permanent
failure, never throttled or plain-retryable, for any header, declared
content length, body and decoder. -/
theorem claim_C4_status_400_permanent (decode : List Nat → Option Status)
    (url : String) (hdr : String) (cl : Int) (body : List Nat) :
    ∃ m, classify decode url (Response.mk 400 hdr cl body) =
      some (ExportError.permanent m) := by
  unfold classify
  rw [if_neg (show ¬((200 : Int) ≤ 400 ∧ (400 : Int) ≤ 299) by omega),
    if_neg (show ¬((400 : Int) = 429 ∨ (400 : Int) = 503) by omega), if_pos rfl]
  exact ⟨_, rfl⟩

/-- C5: every status outside 200–299 other than 429, 503 and 400 — all
remaining 4xx/5xx and also 1xx/3xx — classifies as a plain retryable
failure, not permanent and carrying no throttle delay. -/
theorem claim_C5_other_codes_retryable (decode : List Nat → Option Status)
    (url : String) (resp : Response)
    (h2xx : ¬(200 ≤ resp.statusCode ∧ resp.statusCode ≤ 299))
    (h429 : resp.statusCode ≠ 429) (h503 : resp.statusCode ≠ 503)
    (h400 : resp.statusCode ≠ 400) :
    ∃ m, classify decode url resp = some (ExportError.retryable m) := by
  unfold classify
  rw [if_neg h2xx, if_neg (by intro hc; rcases hc with hc | hc <;> [exact h429 hc; exact h503 hc]),
    if_neg h400]
  exact ⟨_, rfl⟩

/-- C5 witness: a 3xx code (302) classifies retryable. -/
theorem claim_C5_other_codes_retryable_witness :
    ∃ m, classify noStatusDecode "http://collector" (Response.mk 302 "" 0 []) =
      some (ExportError.retryable m) :=
  claim_C5_other_codes_retryable noStatusDecode "http://collector"
    (Response.mk 302 "" 0 []) (by decide) (by decide) (by decide) (by decide)

/-- C6: when `client.Do` fails at transport level (no response descriptor),
every push entry point returns the plain retryable transport error — never
permanent, never throttled — regardless of debug logging state. -/
theorem claim_C6_transport_error_retryable (dbg : Bool) (dt : Except String String)
    (decode : List Nat → Option Status) (request : List Nat) (err url : String) :
    pushTraces dbg dt (Except.ok request) decode (fun _ => HTTPResult.doError err) url =
      Except.ok (some (ExportError.retryable ("failed to make an HTTP request: " ++ err)),
        [request]) ∧
    pushMetrics dbg dt (Except.ok request) decode (fun _ => HTTPResult.doError err) url =
      Except.ok (some (ExportError.retryable ("failed to make an HTTP request: " ++ err)),
        [request]) ∧
    pushLogs dbg dt (Except.ok request) decode (fun _ => HTTPResult.doError err) url =
      Except.ok (some (ExportError.retryable ("failed to make an HTTP request: " ++ err)),
        [request]) := by
  cases dbg <;> exact ⟨rfl, rfl, rfl⟩

/-- C7: when `MarshalProto` fails on a batch, each of the three push entry
points returns a permanent failure and hands nothing to the transport
(the recorded list of transmitted payloads is empty). -/
theorem claim_C7_encoding_failure_permanent (dbg : Bool) (dt : Except String String)
    (e : String) (decode : List Nat → Option Status) (net : List Nat → HTTPResult)
    (u1 u2 u3 : String) :
    pushTraces dbg dt (Except.error e) decode net u1 =
      Except.ok (some (ExportError.permanent e), []) ∧
    pushMetrics dbg dt (Except.error e) decode net u2 =
      Except.ok (some (ExportError.permanent e), []) ∧
    pushLogs dbg dt (Except.error e) decode net u3 =
      Except.ok (some (ExportError.permanent e), []) := by
  cases dbg <;> exact ⟨rfl, rfl, rfl⟩

/-- C3: `pushLogs` returns the same outcome with debug-level logging
enabled as with it disabled, and it completes normally (no panic escapes):
the debug rendering is a pure side-channel. -/
theorem claim_C3_debug_has_no_effect (dt : Except String String)
    (marshalProto : Except String (List Nat)) (decode : List Nat → Option Status)
    (net : List Nat → HTTPResult) (url : String) :
    pushLogs true dt marshalProto decode net url =
      pushLogs false dt marshalProto decode net url ∧
    ∃ out, pushLogs true dt marshalProto decode net url = Except.ok out := by
  unfold pushLogs
  cases marshalProto with
  | error e => exact ⟨rfl, _, rfl⟩
  | ok request => exact ⟨rfl, _, rfl⟩

lemma readResponse_none_of_bad (decode : List Nat → Option Status) (resp : Response)
    (hbad : resp.body.length < maxReadNat resp ∨ maxReadNat resp = 0 ∨
      decode (resp.body.take (maxReadNat resp)) = none) :
    readResponse decode resp = none := by
  unfold readResponse
  split
  · rcases hbad with h | h | h
    · rw [if_neg]
      intro hc
      omega
    · rw [if_neg]
      intro hc
      omega
    · by_cases hc : min resp.body.length (maxReadNat resp) = maxReadNat resp ∧
          0 < min resp.body.length (maxReadNat resp)
      · rw [if_pos hc]
        exact h
      · rw [if_neg hc]
  · rfl

/-- C8: for every failure response (status 400–599) whose body is absent
(`maxRead = 0`), truncated (fewer bytes than `maxRead`), or not a valid
encoded status message (`decode` yields nothing), `readResponse` yields no
status — `none`, not an error — and `export` still classifies from the HTTP
status code alone, its message being exactly the URL-and-status-code
formatting with no decoded-message fragment. -/
theorem claim_C8_decode_degradation (decode : List Nat → Option Status)
    (url : String) (resp : Response)
    (hfail : 400 ≤ resp.statusCode ∧ resp.statusCode ≤ 599)
    (hbad : resp.body.length < maxReadNat resp ∨ maxReadNat resp = 0 ∨
      decode (resp.body.take (maxReadNat resp)) = none) :
    readResponse decode resp = none ∧
    ∃ e, classify decode url resp = some e ∧
      errMessage e = formatNoStatus url resp.statusCode := by
  have hnone := readResponse_none_of_bad decode resp hbad
  refine ⟨hnone, ?_⟩
  obtain ⟨e, he, hm⟩ := classify_message decode url resp (by omega)
  refine ⟨e, he, ?_⟩
  rw [hm]
  unfold formattedError
  rw [hnone]

/-- C8 witness: a 500 response with declared length unknown and an empty
body decodes to no status, and the outcome message is the
URL-and-status-only formatting. -/
theorem claim_C8_decode_degradation_witness :
    readResponse noStatusDecode (Response.mk 500 "" (-1) []) = none ∧
    ∃ e, classify noStatusDecode "http://collector" (Response.mk 500 "" (-1) []) = some e ∧
      errMessage e = formatNoStatus "http://collector" 500 :=
  claim_C8_decode_degradation noStatusDecode "http://collector"
    (Response.mk 500 "" (-1) []) (by constructor <;> decide)
    (Or.inl (by decide))

/-- C9: for every failure response (status 400–599) whose body decodes to
a status message `st`, the outcome's message is the full formatting and so
contains the destination URL, the numeric HTTP status code, the decoded
message text and the decoded details. -/
theorem claim_C9_decoded_status_message (decode : List Nat → Option Status)
    (url : String) (resp : Response) (st : Status)
    (hfail : 400 ≤ resp.statusCode ∧ resp.statusCode ≤ 599)
    (hst : readResponse decode resp = some st) :
    ∃ e, classify decode url resp = some e ∧
      errMessage e = formatWithStatus url resp.statusCode st ∧
      strContains (errMessage e) url ∧
      strContains (errMessage e) (toString resp.statusCode) ∧
      strContains (errMessage e) st.message ∧
      strContains (errMessage e) (detailsString st.details) := by
  obtain ⟨e, he, hm⟩ := classify_message decode url resp (by omega)
  have hmsg : errMessage e = formatWithStatus url resp.statusCode st := by
    rw [hm]
    unfold formattedError
    rw [hst]
  refine ⟨e, he, hmsg, ?_, ?_, ?_, ?_⟩ <;> rw [hmsg]
  · exact formatWithStatus_contains_url url resp.statusCode st
  · exact formatWithStatus_contains_code url resp.statusCode st
  · exact formatWithStatus_contains_message url resp.statusCode st
  · exact formatWithStatus_contains_details url resp.statusCode st

/-- C9 witness: a 500 response whose 2-byte body decodes to the status
message "overloaded" with empty details yields an outcome whose message
contains "overloaded". -/
theorem claim_C9_decoded_status_message_witness :
    ∃ e, classify (fun _ => some (Status.mk 0 "overloaded" [])) "http://collector"
        (Response.mk 500 "" 2 [1, 2]) = some e ∧
      errMessage e = formatWithStatus "http://collector" 500 (Status.mk 0 "overloaded" []) ∧
      strContains (errMessage e) "http://collector" ∧
      strContains (errMessage e) (toString (500 : Int)) ∧
      strContains (errMessage e) "overloaded" ∧
      strContains (errMessage e) (detailsString []) :=
  claim_C9_decoded_status_message (fun _ => some (Status.mk 0 "overloaded" []))
    "http://collector" (Response.mk 500 "" 2 [1, 2]) (Status.mk 0 "overloaded" [])
    (by constructor <;> decide) (by decide)

lemma totalBytes_exceeds_cap (body : List Nat)
    (hlen : body.length = 2 * maxHTTPResponseReadBytes) :
    maxHTTPResponseReadBytes <
      totalBodyBytesConsumed (Response.mk 500 "" (-1) body) := by
  simp only [totalBodyBytesConsumed, statusReadBytes, drainBytes, maxReadNat]
  norm_num [hlen, maxHTTPResponseReadBytes]
  omega

/-- C2 counterexample: a 500 response with unknown declared length and a
128 KiB body.  `readResponse` reads the 64 KiB cap, then the deferred
`io.CopyN(ioutil.Discard, resp.Body, maxHTTPResponseReadBytes)` drains up
to another 64 KiB, so one push consumes 128 KiB from the body — more than
the 64 KiB cap the claim asserts for the combined read-plus-drain. -/
theorem claim_C2_counterexample :
    maxHTTPResponseReadBytes <
      totalBodyBytesConsumed
        (Response.mk 500 "" (-1) (List.replicate (2 * maxHTTPResponseReadBytes) 0)) :=
  totalBytes_exceeds_cap _ (List.length_replicate _ _)

/-- C2 amended: each of the two consumption phases is individually bounded
by the 64 KiB cap — the status-decoding read takes at most
`maxHTTPResponseReadBytes` bytes and the deferred drain at most another
`maxHTTPResponseReadBytes` — so the total consumed by one push call is
bounded by twice the cap (128 KiB), regardless of the declared content
length. -/
theorem claim_C2_body_consumption_bounded (resp : Response) :
    statusReadBytes resp ≤ maxHTTPResponseReadBytes ∧
    drainBytes resp ≤ maxHTTPResponseReadBytes ∧
    totalBodyBytesConsumed resp ≤ 2 * maxHTTPResponseReadBytes := by
  have hmax : maxReadNat resp ≤ maxHTTPResponseReadBytes := by
    unfold maxReadNat
    split
    · simp
    · simp only [maxHTTPResponseReadBytes] at *
      omega
  have h1 : statusReadBytes resp ≤ maxHTTPResponseReadBytes := by
    unfold statusReadBytes
    split
    · omega
    · omega
  have h2 : drainBytes resp ≤ maxHTTPResponseReadBytes := by
    unfold drainBytes
    omega
  exact ⟨h1, h2, by unfold totalBodyBytesConsumed; omega⟩
